import Mathlib

/-
  Verification development for the classnotes-buddy repository.

  The TypeScript components are shallowly embedded as pure Lean functions:
  remote-table queries become list operations over row structures, the
  lecture submit flows become functions from form state and an environment
  (describing the outcome of each remote call) to a trace of issued remote
  calls, an outcome, the final form state and the emitted progress values.

  Sources embedded here:
  - src/src/components/student/LectureBrowser.tsx   (fetchLectures, filterLectures)
  - src/src/components/student/LectureViewer.tsx    (fetchLectureData, formatFileSize, interfaces)
  - src/src/components/teacher/LectureUpload.tsx    (single-audio handleSubmit)
  - src/unnamed/part_000                            (StudentDashboard fetchStats)
  - src/unnamed/part_001                            (multi-file LectureUpload: handleSubmit,
                                                     onresult, startRecording, formatFileSize)
-/

namespace ClassnotesBuddy

/-! ## JavaScript string built-ins

The components use the JS string methods trim, toLowerCase and includes.
They are modelled here over the underlying character list so that all
definitions evaluate inside the kernel. -/

/-- Models JS String.prototype.toLowerCase, character by character. -/
def jsToLower (s : String) : String :=
  String.mk (s.data.map Char.toLower)

/-- Models JS String.prototype.trim: strip leading and trailing whitespace. -/
def jsTrim (s : String) : String :=
  String.mk (((s.data.dropWhile Char.isWhitespace).reverse.dropWhile Char.isWhitespace).reverse)

/-- Models JS String.prototype.includes: substring containment. -/
def jsIncludes (haystack needle : String) : Bool :=
  decide (List.IsInfix needle.data haystack.data)

/-- Models the JS idiom (s || null): the empty string is falsy and becomes
null, any other string is kept. -/
def orNull (s : String) : Option String :=
  if s = "" then none else some s

/-! ## String constants appearing in the source -/

def statusDraft : String := "draft"

def statusPublished : String := "published"

def audioWebmType : String := "audio/webm"

def emptyStr : String := ""

def zeroBytesStr : String := "0 Bytes"

def undefinedStr : String := "undefined"

def bytesUnit : String := "Bytes"

def kbUnit : String := "KB"

def mbUnit : String := "MB"

def gbUnit : String := "GB"

/-! ## Data model: remote-table rows

A row of the lectures table, as selected by the components
(select star returns every column used anywhere in the app). -/

structure LectureRow where
  id : String
  title : String
  description : Option String
  transcript : Option String
  audio_url : Option String
  status : String
  teacher_id : String
  created_at : Nat
  updated_at : Nat
deriving Repr, DecidableEq

/-- A row of the student_notes table, as used by StudentDashboard.fetchStats. -/
structure StudentNoteRow where
  id : String
  student_id : String
deriving Repr, DecidableEq

/-! ## Query building blocks -/

/-- Insert one row into a list sorted by created_at descending. -/
def insertDesc (r : LectureRow) : List LectureRow → List LectureRow
  | [] => [r]
  | x :: xs => if x.created_at ≤ r.created_at then r :: x :: xs else x :: insertDesc r xs

/-- Models the query modifier order by created_at descending. -/
def orderByCreatedAtDesc : List LectureRow → List LectureRow
  | [] => []
  | x :: xs => insertDesc x (orderByCreatedAtDesc xs)

/-- Models the PostgREST single() modifier: succeeds exactly when the
filtered result has exactly one row. -/
def single (rows : List LectureRow) : Option LectureRow :=
  match rows with
  | [r] => some r
  | _ => none

/-! ## LectureBrowser.tsx -/

/-- LectureBrowser.fetchLectures (LectureBrowser.tsx lines 42-62):
select star from lectures where status = published, order by created_at
descending. -/
def fetchLectures (table : List LectureRow) : List LectureRow :=
  orderByCreatedAtDesc (table.filter (fun r => r.status == statusPublished))

/-- The search predicate of LectureBrowser.filterLectures: title contains the
term case-insensitively, or description is non-null and contains the term
case-insensitively. -/
def matchesSearch (l : LectureRow) (term : String) : Bool :=
  jsIncludes (jsToLower l.title) (jsToLower term) ||
    (match l.description with
     | some d => jsIncludes (jsToLower d) (jsToLower term)
     | none => false)

/-- LectureBrowser.filterLectures (LectureBrowser.tsx lines 64-75). -/
def filterLectures (lectures : List LectureRow) (searchTerm : String) : List LectureRow :=
  if jsTrim searchTerm = "" then lectures
  else lectures.filter (fun l => matchesSearch l searchTerm)

/-! ## StudentDashboard (src/unnamed/part_000) -/

structure StudentStats where
  available_lectures : Nat
  completed_notes : Nat
  recent_lectures : List LectureRow
  recommended_lectures : List LectureRow
deriving Repr, DecidableEq

/-- StudentDashboard.fetchStats (part_000 lines 42-72): published lectures
ordered by created_at descending, notes of the current student, stats built
from slices of the published list. -/
def fetchStats (lectures : List LectureRow) (notes : List StudentNoteRow)
    (uid : String) : StudentStats :=
  let pubs := orderByCreatedAtDesc (lectures.filter (fun r => r.status == statusPublished))
  let myNotes := notes.filter (fun n => n.student_id == uid)
  ⟨pubs.length, myNotes.length, pubs.take 5, pubs.take 3⟩

/-! ## LectureViewer.tsx -/

/-- LectureViewer.fetchLectureData (LectureViewer.tsx lines 58-83): select
star from lectures where id = lectureId and status = published, single(). -/
def fetchLectureData (table : List LectureRow) (lectureId : String) : Option LectureRow :=
  single (table.filter (fun r => r.id == lectureId && r.status == statusPublished))

/-! ## Lecture upload flows

Both teacher upload components submit through supabase. The remote side is
modelled by an environment fixing the result of each remote call, and a
submit run is a pure function returning the trace of issued remote calls,
the outcome, the final form state and the progress values that were set. -/

/-- A selected file: name, MIME type and byte size. -/
structure FileLike where
  name : String
  type : String
  size : Nat
deriving Repr, DecidableEq

/-- A recorded audio blob. -/
structure Blob where
  size : Nat
deriving Repr, DecidableEq

/-- The object literal passed to the lectures insert. The single-audio
component omits the transcript key; that is modelled as none (the column is
left null). -/
structure LectureInsert where
  teacher_id : Option String
  title : String
  description : Option String
  transcript : Option String
  status : String
deriving Repr, DecidableEq

/-- The remote calls a submit flow can issue. deleteLecture is never issued
by the code; it is included so that its absence from every trace is a
meaningful statement. -/
inductive RemoteCall where
  | insertLecture (row : LectureInsert)
  | storageUpload (path : String) (fileName : String)
  | getPublicUrl (path : String)
  | updateAudioUrl (lectureId : String) (url : String)
  | deleteLecture (lectureId : String)
deriving Repr, DecidableEq

/-- How a submit run ends: rejected by one of the two client-side guards,
aborted by a thrown remote error, or fully successful. -/
inductive Outcome where
  | invalidTitle
  | invalidContent
  | failed
  | succeeded
deriving Repr, DecidableEq

/-- Environment of one submit run: current user id, result of the lectures
insert (the new row id on success, none when the insert errors), success of
the k-th storage upload call, whether the awaited audio_url update rejects,
the values returned by Date.now, and the public URL returned by storage for
a path. -/
structure SubmitEnv where
  userId : Option String
  insertResult : Option String
  uploadOk : Nat → Bool
  updateThrows : Bool
  timeAudio : Nat
  timeFile : Nat → Nat
  publicUrl : String → String

def isStorageUpload : RemoteCall → Bool
  | RemoteCall.storageUpload _ _ => true
  | _ => false

def isInsertLecture : RemoteCall → Bool
  | RemoteCall.insertLecture _ => true
  | _ => false

namespace MultiUpload

/-- Form state of the multi-file LectureUpload component (src/unnamed/part_001). -/
structure FormState where
  title : String
  description : String
  transcript : String
  uploadedFiles : List FileLike
  audioBlob : Option Blob
deriving Repr, DecidableEq

/-- The form reset performed after a fully successful submit
(part_001 lines 293-302). -/
def clearedForm : FormState :=
  ⟨emptyStr, emptyStr, emptyStr, [], none⟩

/-- The file-like object built from the recorded audio blob
(part_001 lines 241-250): name recording-(Date.now()).webm, type audio/webm. -/
def recordedFile (env : SubmitEnv) (b : Blob) : FileLike :=
  ⟨"recording-" ++ toString env.timeAudio ++ ".webm", audioWebmType, b.size⟩

/-- The fileUploads list (part_001 lines 238-253): the recorded audio first
when present, then the selected files in list order. -/
def fileUploads (env : SubmitEnv) (s : FormState) : List FileLike :=
  (match s.audioBlob with
   | some b => [recordedFile env b]
   | none => []) ++ s.uploadedFiles

/-- Storage path of the i-th upload (part_001 line 259):
lectureId/(Date.now())-(file name). -/
def uploadPath (env : SubmitEnv) (lectureId : String) (i : Nat) (f : FileLike) : String :=
  lectureId ++ "/" ++ toString (env.timeFile i) ++ "-" ++ f.name

/-- The storage upload call for the i-th file. -/
def uploadCall (env : SubmitEnv) (lectureId : String) (i : Nat) (f : FileLike) : RemoteCall :=
  RemoteCall.storageUpload (uploadPath env lectureId i f) f.name

/-- The progress value set after the i-th of n uploads succeeds
(part_001 line 271): 30 + ((i + 1) / n) * 60. -/
def progressAt (n i : Nat) : ℚ :=
  30 + ((i : ℚ) + 1) / (n : ℚ) * 60

/-- The upload loop (part_001 lines 256-272): files are uploaded one by one;
the first error throws, ending the loop. Returns the issued storage calls,
the progress values set, and on full success the list of storage paths. -/
def uploadLoop (env : SubmitEnv) (lectureId : String) (n : Nat) :
    Nat → List FileLike → List RemoteCall × List ℚ × Option (List String)
  | _, [] => ([], [], some [])
  | i, f :: rest =>
    if env.uploadOk i then
      let r := uploadLoop env lectureId n (i + 1) rest
      (uploadCall env lectureId i f :: r.1,
       progressAt n i :: r.2.1,
       (r.2.2).map (fun ps => uploadPath env lectureId i f :: ps))
    else
      ([uploadCall env lectureId i f], [], none)

/-- The row passed to the lectures insert (part_001 lines 221-231). -/
def insertRow (env : SubmitEnv) (s : FormState) : LectureInsert :=
  ⟨env.userId, jsTrim s.title, orNull (jsTrim s.description),
   orNull (jsTrim s.transcript), statusDraft⟩

structure SubmitResult where
  trace : List RemoteCall
  outcome : Outcome
  form : FormState
  progress : List ℚ
deriving Repr

/-- The multi-file handleSubmit (part_001 lines 195-315). Guards: non-blank
title, then at least one selected file or a recorded blob. Then: insert the
draft row, set progress 0 and 30, upload every file sequentially, fetch the
public URL of the first uploaded path and update the audio_url of the new
row, set progress 100, reset the form. A thrown remote error aborts the
flow, keeping the form state. The progress field records the values set by
the submit body (part_001 lines 216-286); the finally block afterwards hides
the progress display and resets the value for the next run. -/
def handleSubmit (env : SubmitEnv) (s : FormState) : SubmitResult :=
  if jsTrim s.title = "" then ⟨[], Outcome.invalidTitle, s, []⟩
  else if s.uploadedFiles.isEmpty && s.audioBlob.isNone then
    ⟨[], Outcome.invalidContent, s, []⟩
  else
    match env.insertResult with
    | none => ⟨[RemoteCall.insertLecture (insertRow env s)], Outcome.failed, s, [0]⟩
    | some lid =>
      let fs := fileUploads env s
      let r := uploadLoop env lid fs.length 0 fs
      match r.2.2 with
      | none =>
        ⟨RemoteCall.insertLecture (insertRow env s) :: r.1, Outcome.failed, s,
         0 :: 30 :: r.2.1⟩
      | some paths =>
        match paths with
        | [] =>
          ⟨RemoteCall.insertLecture (insertRow env s) :: r.1, Outcome.succeeded,
           clearedForm, 0 :: 30 :: (r.2.1 ++ [100])⟩
        | p :: _ =>
          if env.updateThrows then
            ⟨RemoteCall.insertLecture (insertRow env s) ::
               (r.1 ++ [RemoteCall.getPublicUrl p,
                        RemoteCall.updateAudioUrl lid (env.publicUrl p)]),
             Outcome.failed, s, 0 :: 30 :: r.2.1⟩
          else
            ⟨RemoteCall.insertLecture (insertRow env s) ::
               (r.1 ++ [RemoteCall.getPublicUrl p,
                        RemoteCall.updateAudioUrl lid (env.publicUrl p)]),
             Outcome.succeeded, clearedForm, 0 :: 30 :: (r.2.1 ++ [100])⟩

end MultiUpload

namespace SingleUpload

/-- Form state of the single-audio LectureUpload component
(src/src/components/teacher/LectureUpload.tsx). -/
structure FormState where
  title : String
  description : String
  audioFile : Option FileLike
  audioBlob : Option Blob
deriving Repr, DecidableEq

/-- The form reset after a successful submit (LectureUpload.tsx lines 176-184). -/
def clearedForm : FormState :=
  ⟨emptyStr, emptyStr, none, none⟩

/-- The row passed to the lectures insert (LectureUpload.tsx lines 148-157);
no transcript key is present. -/
def insertRow (env : SubmitEnv) (s : FormState) : LectureInsert :=
  ⟨env.userId, jsTrim s.title, orNull (jsTrim s.description), none, statusDraft⟩

structure SubmitResult where
  trace : List RemoteCall
  outcome : Outcome
  form : FormState
  progress : List ℚ
deriving Repr

/-- The single-audio handleSubmit (LectureUpload.tsx lines 122-197). Guards:
non-blank title, then an uploaded audio file or a recorded blob. Then: insert
the draft row, progress 50 and 100, reset the form. No storage upload is
performed. The progress field records the values set by the submit body; the
finally block afterwards hides the display and resets the value. -/
def handleSubmit (env : SubmitEnv) (s : FormState) : SubmitResult :=
  if jsTrim s.title = "" then ⟨[], Outcome.invalidTitle, s, []⟩
  else if s.audioFile.isNone && s.audioBlob.isNone then
    ⟨[], Outcome.invalidContent, s, []⟩
  else
    match env.insertResult with
    | none => ⟨[RemoteCall.insertLecture (insertRow env s)], Outcome.failed, s, [0]⟩
    | some _ =>
      ⟨[RemoteCall.insertLecture (insertRow env s)], Outcome.succeeded,
       clearedForm, [0, 50, 100]⟩

end SingleUpload

/-! ## Live speech-to-text (src/unnamed/part_001 lines 54-161)

A recognition result delivers the text of its first alternative and an
isFinal flag; a result event carries the result list and the index from
which the loop in onresult starts. -/

structure RecogResult where
  alt : String
  isFinal : Bool
deriving Repr, DecidableEq

structure RecogEvent where
  resultIndex : Nat
  results : List RecogResult
deriving Repr, DecidableEq

/-- The onresult handler (part_001 lines 63-76): fold over the results from
resultIndex, appending segment text plus one space for each final result;
when the collected text is non-empty, append it to the transcript state. -/
def onresult (ev : RecogEvent) (transcript : String) : String :=
  let finalT := (ev.results.drop ev.resultIndex).foldl
    (fun acc r => if r.isFinal then acc ++ r.alt ++ " " else acc) emptyStr
  if finalT = "" then transcript else transcript ++ finalT

/-- startRecording (part_001 line 128) replaces any previous transcript with
the empty string. -/
def startRecordingTranscript (_prev : String) : String := emptyStr

/-- The transcript state after starting a recording (clearing any previous
transcript) and then receiving the given result events in order. -/
def sessionTranscript (prev : String) (events : List RecogEvent) : String :=
  events.foldl (fun t ev => onresult ev t) (startRecordingTranscript prev)

/-- The final (isFinal) segments delivered by one event, in order. -/
def finalSegments (ev : RecogEvent) : List String :=
  ((ev.results.drop ev.resultIndex).filter (fun r => r.isFinal)).map (fun r => r.alt)

/-- Concatenation of segments, each followed by a single space. -/
def concatSpaced (segs : List String) : String :=
  segs.foldl (fun acc s => acc ++ s ++ " ") emptyStr

/-! ## formatFileSize (LectureViewer.tsx lines 92-98 and part_001 lines 187-193)

The JS code computes i = Math.floor(Math.log(bytes) / Math.log(1024)) and
renders parseFloat((bytes / 1024 ** i).toFixed(2)) followed by sizes[i].
Math.floor of the base-1024 logarithm is embedded exactly as Nat.log 1024,
and toFixed(2) followed by parseFloat as round-half-up to hundredths over
exact arithmetic with trailing zeros dropped. When i is outside the sizes
array, sizes[i] is undefined and string concatenation renders it as the
text undefined. -/

def sizesArr : List String := [bytesUnit, kbUnit, mbUnit, gbUnit]

/-- Round-half-up of 100 * bytes / 1024 ^ i, computed over naturals. -/
def roundedCentis (bytes i : Nat) : Nat :=
  (200 * bytes + 1024 ^ i) / (2 * 1024 ^ i)

def zeroDigit : String := "0"

/-- Two-digit rendering of a number below 100. -/
def pad2 (n : Nat) : String :=
  if n < 10 then zeroDigit ++ toString n else toString n

/-- Decimal rendering of a hundredths count, trailing zeros dropped, as
parseFloat(x.toFixed(2)) renders it. -/
def renderFixed2 (v : Nat) : String :=
  let ip := v / 100
  let fr := v % 100
  if fr = 0 then toString ip
  else if fr % 10 = 0 then toString ip ++ "." ++ toString (fr / 10)
  else toString ip ++ "." ++ pad2 fr

def formatFileSize (bytes : Nat) : String :=
  if bytes = 0 then zeroBytesStr
  else
    let i := Nat.log 1024 bytes
    let num := renderFixed2 (roundedCentis bytes i)
    match sizesArr.get? i with
    | some u => num ++ " " ++ u
    | none => num ++ " " ++ undefinedStr

/-! ## Interface field names (claim C7)

The field lists of the TypeScript interfaces, in declaration order, and the
field lists asserted by the specification sentence. -/

def idField : String := "id"

def titleField : String := "title"

def descriptionField : String := "description"

def transcriptField : String := "transcript"

def audioUrlField : String := "audio_url"

def statusField : String := "status"

def createdAtField : String := "created_at"

def updatedAtField : String := "updated_at"

def teacherIdField : String := "teacher_id"

def fileNameField : String := "file_name"

def filePathField : String := "file_path"

def fileTypeField : String := "file_type"

def mimeTypeField : String := "mime_type"

def fileSizeField : String := "file_size"

def isPrimaryField : String := "is_primary"

/-- Fields of interface Lecture in LectureViewer.tsx (lines 22-30). -/
def viewerLectureFields : List String :=
  [idField, titleField, descriptionField, transcriptField, audioUrlField,
   createdAtField, teacherIdField]

/-- Fields of interface Lecture in LectureBrowser.tsx (lines 17-25). -/
def browserLectureFields : List String :=
  [idField, titleField, descriptionField, statusField, createdAtField,
   updatedAtField, teacherIdField]

/-- Fields of interface LectureFile in LectureViewer.tsx (lines 32-40). -/
def viewerLectureFileFields : List String :=
  [idField, fileNameField, filePathField, fileTypeField, mimeTypeField,
   fileSizeField, isPrimaryField]

/-- The Lecture field set asserted by the specification: id, title,
description, transcript, audio URL, status, owner and the two timestamps. -/
def specLectureFields : List String :=
  [idField, titleField, descriptionField, transcriptField, audioUrlField,
   statusField, teacherIdField, createdAtField, updatedAtField]

/-- The LectureFile field set asserted by the specification: id, name, path,
mime type, size and the primary flag. -/
def specLectureFileFields : List String :=
  [idField, fileNameField, filePathField, mimeTypeField, fileSizeField,
   isPrimaryField]

/-- The LectureFile field set of the amended claim: the declared interface
additionally carries a file type field. -/
def amendedLectureFileFields : List String :=
  [idField, fileNameField, filePathField, fileTypeField, mimeTypeField,
   fileSizeField, isPrimaryField]

/-! ## Concrete inputs used by the witness theorems -/

def lidDraftW : String := "lec-draft"

def lidPubW : String := "lec-pub"

def teacherW : String := "teacher-1"

def uidW : String := "student-1"

def titleAlgW : String := "Algebra basics"

def titleBioW : String := "Biology"

def descCellsW : String := "about cells"

def termCellW : String := "CELL"

def rowDraftW : LectureRow :=
  ⟨lidDraftW, titleAlgW, none, none, none, statusDraft, teacherW, 3, 3⟩

def rowPubW : LectureRow :=
  ⟨lidPubW, titleBioW, some descCellsW, none, none, statusPublished, teacherW, 5, 5⟩

def tableW : List LectureRow := [rowDraftW, rowPubW]

def notesW : List StudentNoteRow := []

def lectureIdW : String := "new-lec-1"

def urlPreW : String := "https://cdn.example/"

def envOkW : SubmitEnv :=
  ⟨some teacherW, some lectureIdW, fun _ => true, false, 11, fun i => 20 + i,
   fun p => urlPreW ++ p⟩

def envInsFailW : SubmitEnv :=
  ⟨some teacherW, none, fun _ => true, false, 11, fun i => 20 + i,
   fun p => urlPreW ++ p⟩

def envUpFail1W : SubmitEnv :=
  ⟨some teacherW, some lectureIdW, fun i => i == 0, false, 11, fun i => 20 + i,
   fun p => urlPreW ++ p⟩

def envUpdThrowW : SubmitEnv :=
  ⟨some teacherW, some lectureIdW, fun _ => true, true, 11, fun i => 20 + i,
   fun p => urlPreW ++ p⟩

def fileANameW : String := "notes.pdf"

def pdfTypeW : String := "application/pdf"

def fileBNameW : String := "diagram.png"

def pngTypeW : String := "image/png"

def fileAW : FileLike := ⟨fileANameW, pdfTypeW, 1000⟩

def fileBW : FileLike := ⟨fileBNameW, pngTypeW, 2000⟩

def blobW : Blob := ⟨4096⟩

def titlePaddedW : String := "  Algebra  "

def descPadW : String := " intro "

def transPadW : String := " hello world "

def smW : MultiUpload.FormState :=
  ⟨titlePaddedW, descPadW, transPadW, [fileAW, fileBW], none⟩

def smBlobW : MultiUpload.FormState :=
  ⟨titlePaddedW, descPadW, transPadW, [fileAW], some blobW⟩

def ssW : SingleUpload.FormState :=
  ⟨titlePaddedW, descPadW, some fileAW, none⟩

/-! ## Helper lemmas -/

theorem mem_insertDesc {a r : LectureRow} {l : List LectureRow} :
    a ∈ insertDesc r l ↔ a = r ∨ a ∈ l := by
  induction l with
  | nil => simp [insertDesc]
  | cons x xs ih =>
    simp only [insertDesc]
    split
    · simp [List.mem_cons]
    · simp only [List.mem_cons, ih]
      tauto

theorem mem_orderByCreatedAtDesc {a : LectureRow} {l : List LectureRow} :
    a ∈ orderByCreatedAtDesc l ↔ a ∈ l := by
  induction l with
  | nil => simp [orderByCreatedAtDesc]
  | cons x xs ih => simp [orderByCreatedAtDesc, mem_insertDesc, ih]

theorem status_of_mem_published {r : LectureRow} {table : List LectureRow}
    (hm : r ∈ orderByCreatedAtDesc (table.filter (fun x => x.status == statusPublished))) :
    r.status = statusPublished := by
  rw [mem_orderByCreatedAtDesc] at hm
  simpa using (List.mem_filter.mp hm).2

theorem mem_of_single {rows : List LectureRow} {x : LectureRow}
    (h : single rows = some x) : x ∈ rows := by
  match rows with
  | [] => simp [single] at h
  | [r] =>
    simp [single] at h
    simp [h]
  | a :: b :: t => simp [single] at h

theorem uploadLoop_all_ok (env : SubmitEnv) (lid : String) (n : Nat)
    (fs : List FileLike) :
    ∀ i, (∀ k, k < fs.length → env.uploadOk (i + k) = true) →
      MultiUpload.uploadLoop env lid n i fs =
        ((fs.enumFrom i).map (fun p => MultiUpload.uploadCall env lid p.1 p.2),
         (fs.enumFrom i).map (fun p => MultiUpload.progressAt n p.1),
         some ((fs.enumFrom i).map (fun p => MultiUpload.uploadPath env lid p.1 p.2))) := by
  induction fs with
  | nil => intro i _; simp [MultiUpload.uploadLoop]
  | cons f rest ih =>
    intro i h
    have h0 : env.uploadOk i = true := by simpa using h 0 (by simp)
    have hr := ih (i + 1) (fun k hk => by
      rw [Nat.add_assoc, Nat.add_comm 1 k]
      exact h (k + 1) (by simpa using Nat.succ_lt_succ hk))
    simp [MultiUpload.uploadLoop, h0, hr, List.enumFrom_cons]

theorem uploadLoop_first_fail (env : SubmitEnv) (lid : String) (n : Nat)
    (fs : List FileLike) :
    ∀ i j, j < fs.length →
      (∀ k, k < j → env.uploadOk (i + k) = true) →
      env.uploadOk (i + j) = false →
      MultiUpload.uploadLoop env lid n i fs =
        (((fs.take (j + 1)).enumFrom i).map
           (fun p => MultiUpload.uploadCall env lid p.1 p.2),
         ((fs.take j).enumFrom i).map (fun p => MultiUpload.progressAt n p.1),
         none) := by
  induction fs with
  | nil => intro i j hj; simp at hj
  | cons f rest ih =>
    intro i j hj hok hfail
    cases j with
    | zero =>
      have h0 : env.uploadOk i = false := by simpa using hfail
      simp [MultiUpload.uploadLoop, h0, List.enumFrom_cons]
    | succ j' =>
      have h0 : env.uploadOk i = true := by simpa using hok 0 (Nat.succ_pos j')
      have hr := ih (i + 1) j' (by simpa using hj)
        (fun k hk => by
          rw [Nat.add_assoc, Nat.add_comm 1 k]
          exact hok (k + 1) (Nat.succ_lt_succ hk))
        (by rw [Nat.add_assoc, Nat.add_comm 1 j']; exact hfail)
      simp [MultiUpload.uploadLoop, h0, hr, List.enumFrom_cons, List.take_succ_cons]

theorem uploadLoop_calls_storage (env : SubmitEnv) (lid : String) (n : Nat)
    (fs : List FileLike) :
    ∀ i c, c ∈ (MultiUpload.uploadLoop env lid n i fs).1 → isStorageUpload c = true := by
  induction fs with
  | nil => intro i c hc; simp [MultiUpload.uploadLoop] at hc
  | cons f rest ih =>
    intro i c hc
    by_cases h0 : env.uploadOk i = true
    · simp only [MultiUpload.uploadLoop, h0, if_true] at hc
      rcases List.mem_cons.mp hc with rfl | hmem
      · simp [MultiUpload.uploadCall, isStorageUpload]
      · exact ih (i + 1) c hmem
    · have h0f : env.uploadOk i = false := by simpa using h0
      simp only [MultiUpload.uploadLoop, h0f, Bool.false_eq_true, if_false,
        List.mem_singleton] at hc
      subst hc
      simp [MultiUpload.uploadCall, isStorageUpload]

theorem fileUploads_ne_nil (env : SubmitEnv) (s : MultiUpload.FormState)
    (hcont : s.uploadedFiles ≠ [] ∨ s.audioBlob ≠ none) :
    MultiUpload.fileUploads env s ≠ [] := by
  unfold MultiUpload.fileUploads
  rcases hcont with h | h
  · cases s.audioBlob <;> simp [h]
  · cases hb : s.audioBlob with
    | none => exact absurd hb h
    | some b => simp

theorem content_guard_false (s : MultiUpload.FormState)
    (hcont : s.uploadedFiles ≠ [] ∨ s.audioBlob ≠ none) :
    (s.uploadedFiles.isEmpty && s.audioBlob.isNone) ≠ true := by
  intro hcb
  simp only [Bool.and_eq_true, List.isEmpty_iff, Option.isNone_iff_eq_none] at hcb
  tauto

theorem map_enumFrom_zero_fst {α β : Type} (g : Nat → β) (l : List α) :
    (l.enumFrom 0).map (fun p => g p.1) = (List.range l.length).map g := by
  have h1 : (l.enumFrom 0).map (fun p => g p.1) =
      ((l.enumFrom 0).map Prod.fst).map g := by
    rw [List.map_map]
    rfl
  rw [h1, List.enumFrom_map_fst, List.range_eq_range']

theorem multi_success_run (env : SubmitEnv) (s : MultiUpload.FormState) (lid : String)
    (f0 : FileLike) (rest : List FileLike)
    (ht : jsTrim s.title ≠ "")
    (hcont : s.uploadedFiles ≠ [] ∨ s.audioBlob ≠ none)
    (hins : env.insertResult = some lid)
    (hall : ∀ k, k < (MultiUpload.fileUploads env s).length → env.uploadOk k = true)
    (hupd : env.updateThrows = false)
    (hfs : MultiUpload.fileUploads env s = f0 :: rest) :
    MultiUpload.handleSubmit env s =
      ⟨RemoteCall.insertLecture (MultiUpload.insertRow env s) ::
         ((((MultiUpload.fileUploads env s).enumFrom 0).map
             (fun p => MultiUpload.uploadCall env lid p.1 p.2)) ++
          [RemoteCall.getPublicUrl (MultiUpload.uploadPath env lid 0 f0),
           RemoteCall.updateAudioUrl lid
             (env.publicUrl (MultiUpload.uploadPath env lid 0 f0))]),
       Outcome.succeeded, MultiUpload.clearedForm,
       0 :: 30 :: ((((MultiUpload.fileUploads env s).enumFrom 0).map
           (fun p => MultiUpload.progressAt (MultiUpload.fileUploads env s).length p.1)) ++
         [100])⟩ := by
  have hcb := content_guard_false s hcont
  have hloop := uploadLoop_all_ok env lid (MultiUpload.fileUploads env s).length
    (MultiUpload.fileUploads env s) 0 (fun k hk => by simpa using hall k hk)
  simp only [MultiUpload.handleSubmit, if_neg ht, if_neg hcb, hins, hloop]
  rw [hfs]
  simp [List.enumFrom_cons, hupd]

/-! ## Claim theorems -/

/-- Claim C1: every student-facing lecture fetch returns only published
lectures. A lecture row whose status is not published is never in the
LectureBrowser list, never in the dashboard recent or recommended lists, and
is never the lecture loaded by the viewer. -/
theorem C1_published_only (table : List LectureRow) (notes : List StudentNoteRow)
    (uid lid : String) (r : LectureRow) (h : r.status ≠ statusPublished) :
    r ∉ fetchLectures table ∧
    r ∉ (fetchStats table notes uid).recent_lectures ∧
    r ∉ (fetchStats table notes uid).recommended_lectures ∧
    ∀ lec, fetchLectureData table lid = some lec → lec ≠ r := by
  refine ⟨?_, ?_, ?_, ?_⟩
  · intro hm
    rw [fetchLectures] at hm
    exact h (status_of_mem_published hm)
  · intro hm
    simp only [fetchStats] at hm
    exact h (status_of_mem_published (List.mem_of_mem_take hm))
  · intro hm
    simp only [fetchStats] at hm
    exact h (status_of_mem_published (List.mem_of_mem_take hm))
  · intro lec hlec heq
    subst heq
    rw [fetchLectureData] at hlec
    have hmem := mem_of_single hlec
    have := (List.mem_filter.mp hmem).2
    simp only [Bool.and_eq_true, beq_iff_eq] at this
    exact h this.2

theorem C1_published_only_witness :
    rowDraftW.status ≠ statusPublished ∧
    (rowDraftW ∉ fetchLectures tableW ∧
     rowDraftW ∉ (fetchStats tableW notesW uidW).recent_lectures ∧
     rowDraftW ∉ (fetchStats tableW notesW uidW).recommended_lectures ∧
     ∀ lec, fetchLectureData tableW lidDraftW = some lec → lec ≠ rowDraftW) :=
  ⟨by decide, C1_published_only tableW notesW uidW lidDraftW rowDraftW (by decide)⟩

/-- Claim C4: with a blank search term the filtered list is the full list;
otherwise it keeps exactly the lectures whose title, or non-null
description, contains the term case-insensitively, in the original order. -/
theorem C4_filter_lectures (lectures : List LectureRow) (searchTerm : String) :
    (jsTrim searchTerm = "" → filterLectures lectures searchTerm = lectures) ∧
    (jsTrim searchTerm ≠ "" →
      (filterLectures lectures searchTerm).Sublist lectures ∧
      ∀ l, l ∈ filterLectures lectures searchTerm ↔
        l ∈ lectures ∧
          (jsIncludes (jsToLower l.title) (jsToLower searchTerm) = true ∨
            ∃ d, l.description = some d ∧
              jsIncludes (jsToLower d) (jsToLower searchTerm) = true)) := by
  constructor
  · intro h
    simp [filterLectures, h]
  · intro h
    constructor
    · simp only [filterLectures, if_neg h]
      exact List.filter_sublist lectures
    · intro l
      simp only [filterLectures, if_neg h, List.mem_filter]
      refine and_congr_right fun _ => ?_
      cases hd : l.description <;>
        simp [matchesSearch, hd]

theorem C4_filter_lectures_witness :
    (jsTrim emptyStr = "" ∧ filterLectures tableW emptyStr = tableW) ∧
    (jsTrim termCellW ≠ "" ∧
      (filterLectures tableW termCellW).Sublist tableW ∧
      (rowPubW ∈ filterLectures tableW termCellW ↔
        rowPubW ∈ tableW ∧
          (jsIncludes (jsToLower rowPubW.title) (jsToLower termCellW) = true ∨
            ∃ d, rowPubW.description = some d ∧
              jsIncludes (jsToLower d) (jsToLower termCellW) = true))) :=
  ⟨⟨by decide, (C4_filter_lectures tableW emptyStr).1 (by decide)⟩,
   ⟨by decide, ((C4_filter_lectures tableW termCellW).2 (by decide)).1,
    ((C4_filter_lectures tableW termCellW).2 (by decide)).2 rowPubW⟩⟩

/-- Claim C2: in the multi-file submit flow, the storage uploads are issued
strictly sequentially, one direct call per file in fileUploads order
(recorded blob first, then the selected files), and the first upload error
stops the flow: the trace contains exactly the insert and the upload calls
for the files up to and including the failing one, and the submit fails. -/
theorem C2_sequential_uploads (env : SubmitEnv) (s : MultiUpload.FormState)
    (lid : String) (j : Nat)
    (ht : jsTrim s.title ≠ "")
    (hcont : s.uploadedFiles ≠ [] ∨ s.audioBlob ≠ none)
    (hins : env.insertResult = some lid)
    (hj : j < (MultiUpload.fileUploads env s).length)
    (hok : ∀ k, k < j → env.uploadOk k = true)
    (hfail : env.uploadOk j = false) :
    (MultiUpload.handleSubmit env s).trace =
      RemoteCall.insertLecture (MultiUpload.insertRow env s) ::
        (((MultiUpload.fileUploads env s).take (j + 1)).enumFrom 0).map
          (fun p => MultiUpload.uploadCall env lid p.1 p.2) ∧
    (MultiUpload.handleSubmit env s).outcome = Outcome.failed := by
  have hcb := content_guard_false s hcont
  have hloop := uploadLoop_first_fail env lid (MultiUpload.fileUploads env s).length
    (MultiUpload.fileUploads env s) 0 j hj (fun k hk => by simpa using hok k hk)
    (by simpa using hfail)
  simp only [MultiUpload.handleSubmit, if_neg ht, if_neg hcb, hins, hloop]
  refine ⟨?_, ?_⟩ <;> trivial

theorem C2_sequential_uploads_witness :
    jsTrim smW.title ≠ "" ∧
    smW.uploadedFiles ≠ [] ∧
    envUpFail1W.insertResult = some lectureIdW ∧
    1 < (MultiUpload.fileUploads envUpFail1W smW).length ∧
    (∀ k, k < 1 → envUpFail1W.uploadOk k = true) ∧
    envUpFail1W.uploadOk 1 = false ∧
    ((MultiUpload.handleSubmit envUpFail1W smW).trace =
      RemoteCall.insertLecture (MultiUpload.insertRow envUpFail1W smW) ::
        (((MultiUpload.fileUploads envUpFail1W smW).take 2).enumFrom 0).map
          (fun p => MultiUpload.uploadCall envUpFail1W lectureIdW p.1 p.2) ∧
     (MultiUpload.handleSubmit envUpFail1W smW).outcome = Outcome.failed) :=
  ⟨by decide, by decide, rfl, by decide, by decide, by decide,
   C2_sequential_uploads envUpFail1W smW lectureIdW 1 (by decide)
     (Or.inl (by decide)) rfl (by decide) (by decide) (by decide)⟩

/-- Claim C3: a fully successful multi-file submit issues exactly one
lecture insert, a draft row carrying the current user, the trimmed title and
the trimmed-or-null description and transcript, and its final remote call
updates audio_url of the new row to the public URL of the storage path of
the first uploaded file: the recorded audio when present, otherwise the
first selected file. -/
theorem C3_success_writes (env : SubmitEnv) (s : MultiUpload.FormState) (lid : String)
    (ht : jsTrim s.title ≠ "")
    (hcont : s.uploadedFiles ≠ [] ∨ s.audioBlob ≠ none)
    (hins : env.insertResult = some lid)
    (hall : ∀ k, k < (MultiUpload.fileUploads env s).length → env.uploadOk k = true)
    (hupd : env.updateThrows = false) :
    (MultiUpload.handleSubmit env s).outcome = Outcome.succeeded ∧
    (MultiUpload.handleSubmit env s).trace.filter isInsertLecture =
      [RemoteCall.insertLecture
        ⟨env.userId, jsTrim s.title, orNull (jsTrim s.description),
         orNull (jsTrim s.transcript), statusDraft⟩] ∧
    ∃ f0, (MultiUpload.fileUploads env s).head? = some f0 ∧
      (∀ b, s.audioBlob = some b → f0 = MultiUpload.recordedFile env b) ∧
      (s.audioBlob = none → s.uploadedFiles.head? = some f0) ∧
      (MultiUpload.handleSubmit env s).trace.getLast? =
        some (RemoteCall.updateAudioUrl lid
          (env.publicUrl (MultiUpload.uploadPath env lid 0 f0))) := by
  obtain ⟨f0, rest, hfs⟩ := List.exists_cons_of_ne_nil (fileUploads_ne_nil env s hcont)
  have hres := multi_success_run env s lid f0 rest ht hcont hins hall hupd hfs
  have hmapfilter : ((((MultiUpload.fileUploads env s).enumFrom 0).map
      (fun p => MultiUpload.uploadCall env lid p.1 p.2)).filter isInsertLecture) = [] := by
    rw [List.filter_eq_nil_iff]
    intro c hc
    obtain ⟨p, _, rfl⟩ := List.mem_map.mp hc
    simp [MultiUpload.uploadCall, isInsertLecture]
  refine ⟨by rw [hres], ?_, f0, ?_, ?_, ?_, ?_⟩
  · rw [hres]
    simp [List.filter_cons, List.filter_append, hmapfilter, isInsertLecture,
      MultiUpload.insertRow]
  · rw [hfs]
    rfl
  · intro b hb
    simp only [MultiUpload.fileUploads, hb, List.singleton_append] at hfs
    exact ((List.cons.inj hfs).1).symm
  · intro hb
    simp only [MultiUpload.fileUploads, hb, List.nil_append] at hfs
    rw [hfs]
    rfl
  · rw [hres]
    simp only [← List.cons_append, List.getLast?_append]
    rfl

theorem C3_success_writes_witness :
    jsTrim smBlobW.title ≠ "" ∧
    smBlobW.audioBlob ≠ none ∧
    envOkW.insertResult = some lectureIdW ∧
    (∀ k, k < (MultiUpload.fileUploads envOkW smBlobW).length →
      envOkW.uploadOk k = true) ∧
    envOkW.updateThrows = false ∧
    ((MultiUpload.handleSubmit envOkW smBlobW).outcome = Outcome.succeeded ∧
     (MultiUpload.handleSubmit envOkW smBlobW).trace.filter isInsertLecture =
       [RemoteCall.insertLecture
         ⟨envOkW.userId, jsTrim smBlobW.title, orNull (jsTrim smBlobW.description),
          orNull (jsTrim smBlobW.transcript), statusDraft⟩] ∧
     ∃ f0, (MultiUpload.fileUploads envOkW smBlobW).head? = some f0 ∧
       (∀ b, smBlobW.audioBlob = some b → f0 = MultiUpload.recordedFile envOkW b) ∧
       (smBlobW.audioBlob = none → smBlobW.uploadedFiles.head? = some f0) ∧
       (MultiUpload.handleSubmit envOkW smBlobW).trace.getLast? =
         some (RemoteCall.updateAudioUrl lectureIdW
           (envOkW.publicUrl (MultiUpload.uploadPath envOkW lectureIdW 0 f0)))) :=
  ⟨by decide, by decide, rfl, by decide, rfl,
   C3_success_writes envOkW smBlobW lectureIdW (by decide) (Or.inr (by decide))
     rfl (by decide) rfl⟩

/-- Claim C5: during a fully successful multi-file submit with n files the
progress values are 0, 30, then 30 + 60 * (k / n) for k = 1..n, then 100;
the sequence is monotonically non-decreasing, never exceeds 100, and ends at
exactly 100. -/
theorem C5_progress (env : SubmitEnv) (s : MultiUpload.FormState) (lid : String)
    (ht : jsTrim s.title ≠ "")
    (hcont : s.uploadedFiles ≠ [] ∨ s.audioBlob ≠ none)
    (hins : env.insertResult = some lid)
    (hall : ∀ k, k < (MultiUpload.fileUploads env s).length → env.uploadOk k = true)
    (hupd : env.updateThrows = false) :
    (MultiUpload.handleSubmit env s).progress =
      0 :: 30 ::
        (((List.range (MultiUpload.fileUploads env s).length).map
            (fun (k : Nat) => 30 + 60 * (((k : ℚ) + 1) /
              ((MultiUpload.fileUploads env s).length : ℚ)))) ++ [100]) ∧
    List.Chain' (fun a b => a ≤ b) (MultiUpload.handleSubmit env s).progress ∧
    (∀ p, p ∈ (MultiUpload.handleSubmit env s).progress → p ≤ 100) ∧
    (MultiUpload.handleSubmit env s).progress.getLast? = some 100 := by
  obtain ⟨f0, rest, hfs⟩ := List.exists_cons_of_ne_nil (fileUploads_ne_nil env s hcont)
  have hres := multi_success_run env s lid f0 rest ht hcont hins hall hupd hfs
  have hnpos : 0 < (MultiUpload.fileUploads env s).length := by
    rw [hfs]
    simp
  have hnq : (0 : ℚ) < ((MultiUpload.fileUploads env s).length : ℚ) := by
    exact_mod_cast hnpos
  have hprog : (MultiUpload.handleSubmit env s).progress =
      0 :: 30 ::
        (((List.range (MultiUpload.fileUploads env s).length).map
            (fun k => MultiUpload.progressAt (MultiUpload.fileUploads env s).length k)) ++
          [100]) := by
    rw [hres]
    rw [map_enumFrom_zero_fst
      (MultiUpload.progressAt (MultiUpload.fileUploads env s).length)
      (MultiUpload.fileUploads env s)]
  have hb1 : ∀ k : Nat, 30 ≤ MultiUpload.progressAt (MultiUpload.fileUploads env s).length k := by
    intro k
    unfold MultiUpload.progressAt
    have h0 : (0 : ℚ) ≤ ((k : ℚ) + 1) / ((MultiUpload.fileUploads env s).length : ℚ) :=
      div_nonneg (by positivity) (le_of_lt hnq)
    nlinarith
  have hb2 : ∀ k : Nat, k < (MultiUpload.fileUploads env s).length →
      MultiUpload.progressAt (MultiUpload.fileUploads env s).length k ≤ 90 := by
    intro k hk
    unfold MultiUpload.progressAt
    have h1 : ((k : ℚ) + 1) ≤ ((MultiUpload.fileUploads env s).length : ℚ) := by
      exact_mod_cast Nat.succ_le_of_lt hk
    have hdiv : ((k : ℚ) + 1) / ((MultiUpload.fileUploads env s).length : ℚ) ≤ 1 :=
      (div_le_one hnq).mpr h1
    nlinarith
  have hmono : ∀ k1 k2 : Nat, k1 ≤ k2 →
      MultiUpload.progressAt (MultiUpload.fileUploads env s).length k1 ≤
        MultiUpload.progressAt (MultiUpload.fileUploads env s).length k2 := by
    intro k1 k2 h12
    unfold MultiUpload.progressAt
    have h1 : ((k1 : ℚ) + 1) ≤ ((k2 : ℚ) + 1) := by
      have : (k1 : ℚ) ≤ (k2 : ℚ) := by exact_mod_cast h12
      linarith
    have key := mul_le_mul_of_nonneg_right h1
      (le_of_lt (show (0 : ℚ) < 60 / ((MultiUpload.fileUploads env s).length : ℚ) by positivity))
    have e : ∀ a : ℚ, a / ((MultiUpload.fileUploads env s).length : ℚ) * 60 =
        a * (60 / ((MultiUpload.fileUploads env s).length : ℚ)) := by
      intro a
      ring
    rw [e, e]
    linarith
  refine ⟨?_, ?_, ?_, ?_⟩
  · rw [hprog]
    have hclaim : (List.range (MultiUpload.fileUploads env s).length).map
        (fun k => MultiUpload.progressAt (MultiUpload.fileUploads env s).length k) =
        (List.range (MultiUpload.fileUploads env s).length).map
          (fun (k : Nat) => 30 + 60 * (((k : ℚ) + 1) /
            ((MultiUpload.fileUploads env s).length : ℚ))) := by
      apply List.map_congr_left
      intro a _
      unfold MultiUpload.progressAt
      ring
    rw [hclaim]
  · rw [hprog, List.chain'_iff_pairwise]
    refine List.pairwise_cons.mpr ⟨?_, List.pairwise_cons.mpr ⟨?_, ?_⟩⟩
    · intro a ha
      simp only [List.mem_cons, List.mem_append, List.mem_map, List.mem_range,
        List.not_mem_nil, or_false] at ha
      rcases ha with rfl | (⟨k, _, rfl⟩ | rfl)
      · norm_num
      · have := hb1 k
        linarith
      · norm_num
    · intro a ha
      simp only [List.mem_append, List.mem_map, List.mem_range, List.mem_cons,
        List.not_mem_nil, or_false] at ha
      rcases ha with ⟨k, _, rfl⟩ | rfl
      · exact hb1 k
      · norm_num
    · refine List.pairwise_append.mpr ⟨?_, ?_, ?_⟩
      · refine List.pairwise_map.mpr ?_
        exact (List.pairwise_lt_range _).imp (fun hab => hmono _ _ (le_of_lt hab))
      · simp
      · intro a ha b hb
        simp only [List.mem_map, List.mem_range] at ha
        simp only [List.mem_singleton] at hb
        obtain ⟨k, hk, rfl⟩ := ha
        subst hb
        have := hb2 k hk
        linarith
  · rw [hprog]
    intro p hp
    simp only [List.mem_cons, List.mem_append, List.mem_map, List.mem_range,
      List.not_mem_nil, or_false] at hp
    rcases hp with rfl | (rfl | (⟨k, hk, rfl⟩ | rfl))
    · norm_num
    · norm_num
    · have := hb2 k hk
      linarith
    · norm_num
  · rw [hprog]
    have he : (0 : ℚ) :: 30 ::
        (((List.range (MultiUpload.fileUploads env s).length).map
            (fun k => MultiUpload.progressAt (MultiUpload.fileUploads env s).length k)) ++
          [100]) =
        ((0 : ℚ) :: 30 ::
          ((List.range (MultiUpload.fileUploads env s).length).map
            (fun k => MultiUpload.progressAt (MultiUpload.fileUploads env s).length k))) ++
          [100] := by
      simp
    rw [he, List.getLast?_concat]

theorem C5_progress_witness :
    jsTrim smW.title ≠ "" ∧
    smW.uploadedFiles ≠ [] ∧
    envOkW.insertResult = some lectureIdW ∧
    (∀ k, k < (MultiUpload.fileUploads envOkW smW).length → envOkW.uploadOk k = true) ∧
    envOkW.updateThrows = false ∧
    ((MultiUpload.handleSubmit envOkW smW).progress =
      0 :: 30 ::
        (((List.range (MultiUpload.fileUploads envOkW smW).length).map
            (fun (k : Nat) => 30 + 60 * (((k : ℚ) + 1) /
              ((MultiUpload.fileUploads envOkW smW).length : ℚ)))) ++ [100]) ∧
     List.Chain' (fun a b => a ≤ b) (MultiUpload.handleSubmit envOkW smW).progress ∧
     (∀ p, p ∈ (MultiUpload.handleSubmit envOkW smW).progress → p ≤ 100) ∧
     (MultiUpload.handleSubmit envOkW smW).progress.getLast? = some 100) :=
  ⟨by decide, by decide, rfl, by decide, rfl,
   C5_progress envOkW smW lectureIdW (by decide) (Or.inl (by decide)) rfl
     (by decide) rfl⟩

theorem multi_trace_shape (env : SubmitEnv) (s : MultiUpload.FormState)
    (ht : jsTrim s.title ≠ "")
    (hcb : (s.uploadedFiles.isEmpty && s.audioBlob.isNone) ≠ true) :
    ∃ rest, (MultiUpload.handleSubmit env s).trace =
      RemoteCall.insertLecture (MultiUpload.insertRow env s) :: rest := by
  simp only [MultiUpload.handleSubmit, if_neg ht, if_neg hcb]
  cases env.insertResult with
  | none => exact ⟨[], rfl⟩
  | some lid =>
    rcases h2 : (MultiUpload.uploadLoop env lid (MultiUpload.fileUploads env s).length 0
        (MultiUpload.fileUploads env s)).2.2 with _ | paths
    · simp only [h2]
      exact ⟨_, rfl⟩
    · simp only [h2]
      cases paths with
      | nil => exact ⟨_, rfl⟩
      | cons p ps =>
        cases hupd : env.updateThrows <;> simp only [hupd] <;> exact ⟨_, rfl⟩

/-- Claim C8: the single-audio and the multi-file upload components agree on
the submit preconditions and on the row written: both issue no remote call
at all exactly when the title is blank or no content is present, and on a
valid submit both first insert a draft row with the trimmed title and the
trimmed-or-null description. -/
theorem C8_versions_agree (env : SubmitEnv) (sm : MultiUpload.FormState)
    (ss : SingleUpload.FormState) :
    ((MultiUpload.handleSubmit env sm).trace = [] ↔
      jsTrim sm.title = "" ∨ (sm.uploadedFiles = [] ∧ sm.audioBlob = none)) ∧
    ((SingleUpload.handleSubmit env ss).trace = [] ↔
      jsTrim ss.title = "" ∨ (ss.audioFile = none ∧ ss.audioBlob = none)) ∧
    (jsTrim sm.title ≠ "" → (sm.uploadedFiles ≠ [] ∨ sm.audioBlob ≠ none) →
      (MultiUpload.handleSubmit env sm).trace.head? =
        some (RemoteCall.insertLecture (MultiUpload.insertRow env sm))) ∧
    (jsTrim ss.title ≠ "" → (ss.audioFile ≠ none ∨ ss.audioBlob ≠ none) →
      (SingleUpload.handleSubmit env ss).trace =
        [RemoteCall.insertLecture (SingleUpload.insertRow env ss)]) ∧
    ((MultiUpload.insertRow env sm).status = statusDraft ∧
     (SingleUpload.insertRow env ss).status = statusDraft) ∧
    (sm.title = ss.title → sm.description = ss.description →
      (MultiUpload.insertRow env sm).title = (SingleUpload.insertRow env ss).title ∧
      (MultiUpload.insertRow env sm).title = jsTrim sm.title ∧
      (MultiUpload.insertRow env sm).description =
        (SingleUpload.insertRow env ss).description ∧
      (MultiUpload.insertRow env sm).description = orNull (jsTrim sm.description)) := by
  refine ⟨?_, ?_, ?_, ?_, ⟨rfl, rfl⟩, ?_⟩
  · by_cases h1 : jsTrim sm.title = ""
    · simp [MultiUpload.handleSubmit, h1]
    · by_cases h2 : sm.uploadedFiles = [] ∧ sm.audioBlob = none
      · have hcb : (sm.uploadedFiles.isEmpty && sm.audioBlob.isNone) = true := by
          simp [h2.1, h2.2]
        simp [MultiUpload.handleSubmit, h1, hcb, h2]
      · have hcb := content_guard_false sm (by tauto)
        obtain ⟨rest, hrest⟩ := multi_trace_shape env sm h1 hcb
        simp [hrest, h1, h2]
  · by_cases h1 : jsTrim ss.title = ""
    · simp [SingleUpload.handleSubmit, h1]
    · by_cases h2 : ss.audioFile = none ∧ ss.audioBlob = none
      · have hcb : (ss.audioFile.isNone && ss.audioBlob.isNone) = true := by
          simp [h2.1, h2.2]
        simp [SingleUpload.handleSubmit, h1, hcb, h2]
      · have hcb : (ss.audioFile.isNone && ss.audioBlob.isNone) ≠ true := by
          intro hcontra
          simp only [Bool.and_eq_true, Option.isNone_iff_eq_none] at hcontra
          tauto
        simp only [SingleUpload.handleSubmit, if_neg h1, if_neg hcb]
        cases env.insertResult <;> simp [h1, h2]
  · intro h1 hcont
    obtain ⟨rest, hrest⟩ := multi_trace_shape env sm h1 (content_guard_false sm hcont)
    simp [hrest]
  · intro h1 hcont
    have hcb : (ss.audioFile.isNone && ss.audioBlob.isNone) ≠ true := by
      intro hcontra
      simp only [Bool.and_eq_true, Option.isNone_iff_eq_none] at hcontra
      tauto
    simp only [SingleUpload.handleSubmit, if_neg h1, if_neg hcb]
    cases env.insertResult <;> rfl
  · intro hts htd
    refine ⟨?_, rfl, ?_, rfl⟩
    · simp [MultiUpload.insertRow, SingleUpload.insertRow, hts]
    · simp [MultiUpload.insertRow, SingleUpload.insertRow, htd]

theorem C8_versions_agree_witness :
    ((MultiUpload.handleSubmit envOkW smW).trace.head? =
      some (RemoteCall.insertLecture (MultiUpload.insertRow envOkW smW))) ∧
    ((SingleUpload.handleSubmit envOkW ssW).trace =
      [RemoteCall.insertLecture (SingleUpload.insertRow envOkW ssW)]) ∧
    ((MultiUpload.insertRow envOkW smW).title = (SingleUpload.insertRow envOkW ssW).title ∧
     (MultiUpload.insertRow envOkW smW).title = jsTrim smW.title ∧
     (MultiUpload.insertRow envOkW smW).description =
       (SingleUpload.insertRow envOkW ssW).description ∧
     (MultiUpload.insertRow envOkW smW).description = orNull (jsTrim smW.description)) :=
  ⟨(C8_versions_agree envOkW smW ssW).2.2.1 (by decide) (Or.inl (by decide)),
   (C8_versions_agree envOkW smW ssW).2.2.2.1 (by decide) (Or.inl (by decide)),
   (C8_versions_agree envOkW smW ssW).2.2.2.2.2 rfl rfl⟩

/-- Claim C9: the multi-file submit is not atomic on failure: no branch of
the flow ever issues a delete, every non-successful outcome leaves the form
state untouched, and the form fields are cleared exactly on the successful
outcome. In particular a failed upload or a failed audio_url update after a
successful insert leaves the inserted draft row in place and the form
filled. -/
theorem C9_no_rollback (env : SubmitEnv) (s : MultiUpload.FormState) :
    (∀ c ∈ (MultiUpload.handleSubmit env s).trace,
      ∀ lid, c ≠ RemoteCall.deleteLecture lid) ∧
    ((MultiUpload.handleSubmit env s).outcome ≠ Outcome.succeeded →
      (MultiUpload.handleSubmit env s).form = s) ∧
    ((MultiUpload.handleSubmit env s).outcome = Outcome.succeeded →
      (MultiUpload.handleSubmit env s).form = MultiUpload.clearedForm) := by
  by_cases h1 : jsTrim s.title = ""
  · simp [MultiUpload.handleSubmit, h1]
  · by_cases h2 : (s.uploadedFiles.isEmpty && s.audioBlob.isNone) = true
    · simp [MultiUpload.handleSubmit, h1, h2]
    · simp only [MultiUpload.handleSubmit, if_neg h1, if_neg h2]
      cases hins : env.insertResult with
      | none =>
        refine ⟨?_, fun _ => rfl, by simp⟩
        intro c hc lid
        simp only [List.mem_singleton] at hc
        subst hc
        simp
      | some lid =>
        have hnodel : ∀ c ∈ (MultiUpload.uploadLoop env lid
            (MultiUpload.fileUploads env s).length 0 (MultiUpload.fileUploads env s)).1,
            ∀ l, c ≠ RemoteCall.deleteLecture l := by
          intro c hc l
          have := uploadLoop_calls_storage env lid
            (MultiUpload.fileUploads env s).length (MultiUpload.fileUploads env s) 0 c hc
          cases c <;> simp_all [isStorageUpload]
        rcases h3 : (MultiUpload.uploadLoop env lid (MultiUpload.fileUploads env s).length 0
            (MultiUpload.fileUploads env s)).2.2 with _ | paths
        · simp only [h3]
          refine ⟨?_, by simp, by simp⟩
          intro c hc lid'
          rcases List.mem_cons.mp hc with rfl | hmem
          · simp
          · exact hnodel c hmem lid'
        · simp only [h3]
          cases paths with
          | nil =>
            refine ⟨?_, by simp, by simp⟩
            intro c hc lid'
            rcases List.mem_cons.mp hc with rfl | hmem
            · simp
            · exact hnodel c hmem lid'
          | cons p ps =>
            have hmem3 : ∀ c ∈ (MultiUpload.uploadLoop env lid
                (MultiUpload.fileUploads env s).length 0 (MultiUpload.fileUploads env s)).1 ++
                [RemoteCall.getPublicUrl p,
                 RemoteCall.updateAudioUrl lid (env.publicUrl p)],
                ∀ l, c ≠ RemoteCall.deleteLecture l := by
              intro c hc l
              rcases List.mem_append.mp hc with hmem | hmem
              · exact hnodel c hmem l
              · rcases List.mem_cons.mp hmem with rfl | hmem2
                · simp
                · simp only [List.mem_singleton] at hmem2
                  subst hmem2
                  simp
            cases hupd : env.updateThrows
            · simp only [hupd, Bool.false_eq_true, if_false]
              refine ⟨?_, by simp, by simp⟩
              intro c hc lid'
              rcases List.mem_cons.mp hc with rfl | hmem
              · simp
              · exact hmem3 c hmem lid'
            · simp only [hupd, if_true]
              refine ⟨?_, by simp, by simp⟩
              intro c hc lid'
              rcases List.mem_cons.mp hc with rfl | hmem
              · simp
              · exact hmem3 c hmem lid'

theorem C9_no_rollback_witness :
    (∀ c ∈ (MultiUpload.handleSubmit envUpFail1W smW).trace,
      ∀ lid, c ≠ RemoteCall.deleteLecture lid) ∧
    ((MultiUpload.handleSubmit envUpFail1W smW).outcome = Outcome.failed ∧
     (MultiUpload.handleSubmit envUpFail1W smW).form = smW) ∧
    ((MultiUpload.handleSubmit envOkW smW).outcome = Outcome.succeeded ∧
     (MultiUpload.handleSubmit envOkW smW).form = MultiUpload.clearedForm) :=
  ⟨(C9_no_rollback envUpFail1W smW).1,
   ⟨by decide, (C9_no_rollback envUpFail1W smW).2.1 (by decide)⟩,
   ⟨by decide, (C9_no_rollback envOkW smW).2.2 (by decide)⟩⟩

theorem foldl_append_from (segs : List String) :
    ∀ acc : String, segs.foldl (fun a s => a ++ s ++ " ") acc =
      acc ++ segs.foldl (fun a s => a ++ s ++ " ") emptyStr := by
  induction segs with
  | nil =>
    intro acc
    simp [emptyStr, String.append_empty]
  | cons s rest ih =>
    intro acc
    rw [List.foldl_cons, List.foldl_cons, ih (acc ++ s ++ " "), ih (emptyStr ++ s ++ " ")]
    have he : emptyStr ++ s = s := rfl
    rw [he]
    simp [String.append_assoc]

theorem concatSpaced_cons (s : String) (rest : List String) :
    concatSpaced (s :: rest) = s ++ " " ++ concatSpaced rest := by
  unfold concatSpaced
  rw [List.foldl_cons, foldl_append_from]
  have he : emptyStr ++ s = s := rfl
  rw [he]

theorem concatSpaced_append (a b : List String) :
    concatSpaced (a ++ b) = concatSpaced a ++ concatSpaced b := by
  induction a with
  | nil =>
    have he : concatSpaced [] = emptyStr := rfl
    simp only [List.nil_append, he]
    exact (show emptyStr ++ concatSpaced b = concatSpaced b from rfl).symm
  | cons s rest ih =>
    rw [List.cons_append, concatSpaced_cons, concatSpaced_cons, ih]
    simp [String.append_assoc]

theorem recogFold_eq (l : List RecogResult) :
    ∀ acc : String,
      l.foldl (fun a r => if r.isFinal then a ++ r.alt ++ " " else a) acc =
        acc ++ concatSpaced ((l.filter (fun r => r.isFinal)).map (fun r => r.alt)) := by
  induction l with
  | nil =>
    intro acc
    exact (String.append_empty acc).symm
  | cons r rest ih =>
    intro acc
    rw [List.foldl_cons]
    cases hr : r.isFinal with
    | true =>
      simp only [hr, if_true]
      rw [ih (acc ++ r.alt ++ " "), List.filter_cons_of_pos hr, List.map_cons,
        concatSpaced_cons]
      simp [String.append_assoc]
    | false =>
      simp only [hr, Bool.false_eq_true, if_false]
      rw [ih acc, List.filter_cons_of_neg (by simp [hr])]

theorem onresult_eq (ev : RecogEvent) (t : String) :
    onresult ev t = t ++ concatSpaced (finalSegments ev) := by
  unfold onresult finalSegments
  rw [recogFold_eq]
  have he : emptyStr ++ concatSpaced (((ev.results.drop ev.resultIndex).filter
      (fun r => r.isFinal)).map (fun r => r.alt)) =
      concatSpaced (((ev.results.drop ev.resultIndex).filter
        (fun r => r.isFinal)).map (fun r => r.alt)) := rfl
  rw [he]
  by_cases hc : concatSpaced (((ev.results.drop ev.resultIndex).filter
      (fun r => r.isFinal)).map (fun r => r.alt)) = ""
  · rw [if_pos hc, hc, String.append_empty]
  · rw [if_neg hc]

theorem transcript_fold (events : List RecogEvent) :
    ∀ t : String, events.foldl (fun t ev => onresult ev t) t =
      t ++ concatSpaced (events.flatMap finalSegments) := by
  induction events with
  | nil =>
    intro t
    exact (String.append_empty t).symm
  | cons ev rest ih =>
    intro t
    rw [List.foldl_cons, ih (onresult ev t), onresult_eq, List.flatMap_cons,
      concatSpaced_append, String.append_assoc]

/-- Claim C6: starting a recording clears any previous transcript, and the
stored transcript thereafter equals the concatenation, in arrival order, of
exactly the final recognition segments, each followed by a single space;
interim results never contribute. -/
theorem C6_transcript (prev : String) (events : List RecogEvent) :
    startRecordingTranscript prev = "" ∧
    sessionTranscript prev events = concatSpaced (events.flatMap finalSegments) := by
  refine ⟨rfl, ?_⟩
  unfold sessionTranscript
  rw [transcript_fold]
  exact rfl

/-- Claim C10: formatFileSize returns the text 0 Bytes on input 0; for
1 <= b < 1024 ^ 4 the unit index is the floor base-1024 logarithm of b
(characterized by the power sandwich), which is in range, and the rendered
number is b / 1024 ^ i rounded to hundredths (within 1/200 of the exact
ratio); for b >= 1024 ^ 4 the index falls outside the unit array and the
unit renders as the text undefined. -/
theorem C10_format_file_size (b : Nat) (hb : 1 ≤ b) :
    formatFileSize 0 = zeroBytesStr ∧
    (b < 1024 ^ 4 →
      Nat.log 1024 b < 4 ∧
      1024 ^ Nat.log 1024 b ≤ b ∧
      b < 1024 ^ (Nat.log 1024 b + 1) ∧
      (∃ u, sizesArr.get? (Nat.log 1024 b) = some u ∧
        formatFileSize b =
          renderFixed2 (roundedCentis b (Nat.log 1024 b)) ++ " " ++ u) ∧
      |(roundedCentis b (Nat.log 1024 b) : ℚ) / 100 -
          (b : ℚ) / (1024 : ℚ) ^ Nat.log 1024 b| ≤ 1 / 200) ∧
    (1024 ^ 4 ≤ b →
      4 ≤ Nat.log 1024 b ∧
      sizesArr.get? (Nat.log 1024 b) = none ∧
      formatFileSize b =
        renderFixed2 (roundedCentis b (Nat.log 1024 b)) ++ " " ++ undefinedStr) := by
  have hb0 : b ≠ 0 := by omega
  refine ⟨rfl, ?_, ?_⟩
  · intro hlt
    have hlog : Nat.log 1024 b < 4 := Nat.log_lt_of_lt_pow hb0 hlt
    refine ⟨hlog, Nat.pow_log_le_self 1024 hb0,
      Nat.lt_pow_succ_log_self (by norm_num) b, ?_, ?_⟩
    · have hlen : Nat.log 1024 b < sizesArr.length := by
        simpa [sizesArr] using hlog
      refine ⟨sizesArr.get ⟨Nat.log 1024 b, hlen⟩, List.get?_eq_get hlen, ?_⟩
      simp only [formatFileSize, if_neg hb0, List.get?_eq_get hlen]
    · have hp : 0 < 1024 ^ Nat.log 1024 b := Nat.pos_pow_of_pos _ (by norm_num)
      have hdm := Nat.div_add_mod (200 * b + 1024 ^ Nat.log 1024 b)
        (2 * 1024 ^ Nat.log 1024 b)
      have hr := Nat.mod_lt (200 * b + 1024 ^ Nat.log 1024 b)
        (show 0 < 2 * 1024 ^ Nat.log 1024 b by omega)
      have key : (2 * ((1024 ^ Nat.log 1024 b : Nat) : ℚ)) *
            ((roundedCentis b (Nat.log 1024 b) : Nat) : ℚ) +
            (((200 * b + 1024 ^ Nat.log 1024 b) % (2 * 1024 ^ Nat.log 1024 b) : Nat) : ℚ) =
          200 * (b : ℚ) + ((1024 ^ Nat.log 1024 b : Nat) : ℚ) := by
        unfold roundedCentis
        exact_mod_cast hdm
      have hpq : (0 : ℚ) < ((1024 ^ Nat.log 1024 b : Nat) : ℚ) := by exact_mod_cast hp
      have hrq : (((200 * b + 1024 ^ Nat.log 1024 b) % (2 * 1024 ^ Nat.log 1024 b) : Nat) : ℚ) <
          2 * ((1024 ^ Nat.log 1024 b : Nat) : ℚ) := by exact_mod_cast hr
      have hrq0 : (0 : ℚ) ≤
          (((200 * b + 1024 ^ Nat.log 1024 b) % (2 * 1024 ^ Nat.log 1024 b) : Nat) : ℚ) := by
        positivity
      have hcast : (1024 : ℚ) ^ Nat.log 1024 b = ((1024 ^ Nat.log 1024 b : Nat) : ℚ) := by
        push_cast
        ring
      rw [hcast]
      have hq100 : ((roundedCentis b (Nat.log 1024 b) : Nat) : ℚ) / 100 -
          (b : ℚ) / ((1024 ^ Nat.log 1024 b : Nat) : ℚ) =
          (((roundedCentis b (Nat.log 1024 b) : Nat) : ℚ) *
              ((1024 ^ Nat.log 1024 b : Nat) : ℚ) - 100 * (b : ℚ)) /
            (100 * ((1024 ^ Nat.log 1024 b : Nat) : ℚ)) := by
        field_simp
      have h3 : ((roundedCentis b (Nat.log 1024 b) : Nat) : ℚ) *
            ((1024 ^ Nat.log 1024 b : Nat) : ℚ) - 100 * (b : ℚ) =
          (((1024 ^ Nat.log 1024 b : Nat) : ℚ) -
            (((200 * b + 1024 ^ Nat.log 1024 b) % (2 * 1024 ^ Nat.log 1024 b) : Nat) : ℚ)) / 2 := by
        linarith [key]
      rw [hq100, h3]
      have hpr : |((1024 ^ Nat.log 1024 b : Nat) : ℚ) -
          (((200 * b + 1024 ^ Nat.log 1024 b) % (2 * 1024 ^ Nat.log 1024 b) : Nat) : ℚ)| ≤
          ((1024 ^ Nat.log 1024 b : Nat) : ℚ) := by
        rw [abs_le]
        constructor
        · linarith
        · linarith
      calc |(((1024 ^ Nat.log 1024 b : Nat) : ℚ) -
            (((200 * b + 1024 ^ Nat.log 1024 b) % (2 * 1024 ^ Nat.log 1024 b) : Nat) : ℚ)) / 2 /
            (100 * ((1024 ^ Nat.log 1024 b : Nat) : ℚ))| =
          |((1024 ^ Nat.log 1024 b : Nat) : ℚ) -
            (((200 * b + 1024 ^ Nat.log 1024 b) % (2 * 1024 ^ Nat.log 1024 b) : Nat) : ℚ)| /
            (2 * (100 * ((1024 ^ Nat.log 1024 b : Nat) : ℚ))) := by
            rw [abs_div, abs_div]
            rw [abs_of_nonneg (show (0 : ℚ) ≤ 2 by norm_num),
              abs_of_nonneg (by positivity : (0 : ℚ) ≤
                100 * ((1024 ^ Nat.log 1024 b : Nat) : ℚ))]
            ring
        _ ≤ ((1024 ^ Nat.log 1024 b : Nat) : ℚ) /
              (2 * (100 * ((1024 ^ Nat.log 1024 b : Nat) : ℚ))) := by gcongr
        _ = 1 / 200 := by
            field_simp
            ring
  · intro hge
    have hlog : 4 ≤ Nat.log 1024 b :=
      (Nat.pow_le_iff_le_log (by norm_num) hb0).mp hge
    have hnone : sizesArr.get? (Nat.log 1024 b) = none := by
      rw [List.get?_eq_none]
      simpa [sizesArr] using hlog
    refine ⟨hlog, hnone, ?_⟩
    simp only [formatFileSize, if_neg hb0, hnone]

theorem C10_format_file_size_witness :
    1 ≤ 2500 ∧ 2500 < 1024 ^ 4 ∧ 1024 ^ 4 ≤ 1024 ^ 4 ∧
    (Nat.log 1024 2500 < 4 ∧
     1024 ^ Nat.log 1024 2500 ≤ 2500 ∧
     2500 < 1024 ^ (Nat.log 1024 2500 + 1) ∧
     (∃ u, sizesArr.get? (Nat.log 1024 2500) = some u ∧
       formatFileSize 2500 =
         renderFixed2 (roundedCentis 2500 (Nat.log 1024 2500)) ++ " " ++ u) ∧
     |(roundedCentis 2500 (Nat.log 1024 2500) : ℚ) / 100 -
         (2500 : ℚ) / (1024 : ℚ) ^ Nat.log 1024 2500| ≤ 1 / 200) ∧
    (4 ≤ Nat.log 1024 (1024 ^ 4) ∧
     sizesArr.get? (Nat.log 1024 (1024 ^ 4)) = none ∧
     formatFileSize (1024 ^ 4) =
       renderFixed2 (roundedCentis (1024 ^ 4) (Nat.log 1024 (1024 ^ 4))) ++ " " ++
         undefinedStr) :=
  ⟨by norm_num, by norm_num, le_refl _,
   (C10_format_file_size 2500 (by norm_num)).2.1 (by norm_num),
   (C10_format_file_size (1024 ^ 4) (by norm_num)).2.2 (le_refl _)⟩

/-- Claim C7 as stated is refuted at the field file_type: the LectureFile
interface declared in LectureViewer.tsx carries a file_type field that the
specification list (id, name, path, mime type, size, primary flag) omits, so
the entity is not exactly as the specification enumerates it. -/
theorem C7_entity_fields_counterexample :
    viewerLectureFileFields.contains fileTypeField = true ∧
    specLectureFileFields.contains fileTypeField = false := by
  decide

/-- Claim C7, amended: the Lecture fields enumerated by the specification
are exactly the union of the two declared Lecture interfaces (the viewer one
and the browser one), and the declared LectureFile interface carries the
specification fields plus a file_type field. -/
theorem C7_entity_fields :
    specLectureFields.all
      (fun f => viewerLectureFields.contains f || browserLectureFields.contains f) = true ∧
    viewerLectureFields.all (fun f => specLectureFields.contains f) = true ∧
    browserLectureFields.all (fun f => specLectureFields.contains f) = true ∧
    viewerLectureFileFields = amendedLectureFileFields := by
  decide

end ClassnotesBuddy
